import Mathlib

/-!
Shallow embedding of the `metaextractor` Go package (`metaextractor.go`).

The package glues three external effects together: a filesystem stat, a
TrID type-identification run, and an ExifTool tag-extraction run.  We model
each external effect's outcome as a field of an `ExtractEnv` record that is
passed to `Extract`; the control flow, field assignments and string
computations of `Extract`, `getFileTimes` and `extractExifData` are
translated directly from the source.  `time.Time` values are modelled as
`Int` with `0` for Go's zero value; Go string operations on single-byte
separators are modelled as the corresponding operations on the character
list of the string.
-/

/-- Model of Go `time.Time` (zero value is `0`). -/
abbrev GoTime := Int

/-- Outcome of `os.Stat` on success: only `Size()` is consumed by `Extract`. -/
structure FileInfo where
  size : Int
deriving DecidableEq

/-- A Go `error` value returned by `os.Stat` or `times.Stat`; `isNotExist`
models whether `os.IsNotExist` holds of it. -/
structure OsError where
  isNotExist : Bool
  msg : String
deriving DecidableEq

/-- Outcome of `times.Stat` on success (`times.Timespec`): the four
timestamps and the `HasChangeTime`/`HasBirthTime` capability flags. -/
structure TimesInfo where
  modTime : GoTime
  accessTime : GoTime
  changeTime : GoTime
  birthTime : GoTime
  hasChangeTime : Bool
  hasBirthTime : Bool
deriving DecidableEq

/-- `trid.FileType`: one candidate type reported by TrID.  `Extract` only
reads its `Extension` field; the label and mime fields are carried opaquely. -/
structure FileType where
  typeLabel : String
  mime : String
  Extension : String
deriving DecidableEq

/-- `FileTime` struct of the package (four `time.Time` fields). -/
structure FileTime where
  ModTime : GoTime
  AccessTime : GoTime
  ChangeTime : GoTime
  BirthTime : GoTime
deriving DecidableEq

/-- `exiftool.FileMetadata`: per-file result of `et.ExtractMetadata`.
`Fields` is the tag map (values modelled opaquely as strings). -/
structure FileMetadata where
  Err : Option String
  Fields : List (String × String)
deriving DecidableEq

/-- `Metadata` struct of the package.  Go's `Exif` field is a map that can be
`nil` (zero value) or present; we model it as an `Option`, with `some []`
for the non-nil empty map `ExifMetadata{}`. -/
structure Metadata where
  Name : String
  Extension : String
  ExtMismatch : Bool
  Size : Int
  Time : FileTime
  Types : List FileType
  Exif : Option (List (String × String))
deriving DecidableEq

/-- The error values `Extract` can return: the three sentinel errors of the
package, a propagated underlying OS error, or a `fmt.Errorf`-wrapped message
(which `errors.Is` does not unwrap, since `%v` is used). -/
inductive MEError where
  | noFileSpecified
  | fileNotFound
  | noMetadataExtracted
  | osError (e : OsError)
  | wrapped (msg : String)
deriving DecidableEq

/-- Outcomes of the external effects consumed by one call to `Extract`:
the `os.Stat` result, the `times.Stat` result, the TrID scan result, the
`exiftool.NewExiftool` outcome (`some msg` = initialization error) and the
list returned by `et.ExtractMetadata`. -/
structure ExtractEnv where
  statResult : Except OsError FileInfo
  timesResult : Except OsError TimesInfo
  tridResult : Except OsError (List FileType)
  exifInit : Option String
  exifFileInfos : List FileMetadata

/-- Go zero value of `Metadata` (`var metadata Metadata`). -/
def zeroMetadata : Metadata :=
  { Name := ""
    Extension := ""
    ExtMismatch := false
    Size := 0
    Time := { ModTime := 0, AccessTime := 0, ChangeTime := 0, BirthTime := 0 }
    Types := []
    Exif := none }

/-- `strings.ToLower`, restricted to ASCII case mapping (the inputs the
package compares are ASCII extensions). -/
def goToLower (s : String) : String :=
  String.mk (s.data.map Char.toLower)

/-- Auxiliary scan for `filepath.Ext`: walks the reversed character list of
the path (i.e. from the end of the path), accumulating the characters passed
over; stops with `""` at a path separator, and returns the suffix from the
final dot when it finds one. -/
def goExtAux : List Char → List Char → String
  | _, [] => ""
  | acc, c :: rest =>
    if c = '/' then ""
    else if c = '.' then String.mk ('.' :: acc)
    else goExtAux (c :: acc) rest

/-- `filepath.Ext` (Unix): the suffix beginning at the final dot in the final
slash-separated element of the path; empty if there is none. -/
def goExt (p : String) : String :=
  goExtAux [] p.data.reverse

/-- `filepath.Base` (Unix): strip trailing slashes, take the last
slash-separated element; `""` maps to `"."`, an all-slash path to `"/"`. -/
def goBase (p : String) : String :=
  if p = "" then "."
  else
    let r := p.data.reverse.dropWhile (fun c => c = '/')
    let name := r.takeWhile (fun c => ¬ c = '/')
    if name = [] then "/" else String.mk name.reverse

/-- `strings.Contains(s, "/")`. -/
def goContainsSlash (s : String) : Bool :=
  s.data.any (fun c => c = '/')

/-- `strings.ReplaceAll(s, ".", "")`: remove every dot. -/
def goRemoveDots (s : String) : String :=
  String.mk (s.data.filter (fun c => ¬ c = '.'))

/-- Splitting a character list at every `'/'` (each separator starts a new,
possibly empty, field). -/
def splitSlashAux : List Char → List (List Char)
  | [] => [[]]
  | c :: rest =>
    if c = '/' then [] :: splitSlashAux rest
    else
      match splitSlashAux rest with
      | r :: rs => (c :: r) :: rs
      | [] => [[c]]

/-- `strings.Split(s, "/")`. -/
def goSplitSlash (s : String) : List String :=
  (splitSlashAux s.data).map String.mk

/-- The `for _, e := range es` loop of `Extract`: scans the alternatives and
reports whether `"."+e` equals the file's extension for some alternative
(the loop clears the mismatch flag and breaks at the first hit). -/
def extMatchLoop (ext : String) : List String → Bool
  | [] => false
  | e :: es => if "." ++ e = ext then true else extMatchLoop ext es

/-- The `ExtMismatch` computation of `Extract` for a non-empty candidate
list: slash-separated alternatives are compared after dot-stripping and
re-prefixing, a plain field is compared directly to the extension. -/
def computeExtMismatch (ext : String) (tridExt : String) : Bool :=
  if goContainsSlash tridExt then
    ! extMatchLoop ext (goSplitSlash (goRemoveDots tridExt))
  else
    ext ≠ tridExt

/-- `getFileTimes`: on success of `times.Stat`, always copy access and
modification times; copy change/birth times only when the capability flag
holds, leaving the Go zero `time.Time` otherwise. -/
def getFileTimes (timesResult : Except OsError TimesInfo) : Except OsError FileTime :=
  match timesResult with
  | .error err => .error err
  | .ok t =>
    let changeTime : GoTime := if t.hasChangeTime then t.changeTime else 0
    let birthTime : GoTime := if t.hasBirthTime then t.birthTime else 0
    .ok { ModTime := t.modTime
          AccessTime := t.accessTime
          ChangeTime := changeTime
          BirthTime := birthTime }

/-- `extractExifData`: a failed ExifTool initialization or a per-file error
is wrapped with `fmt.Errorf`; an empty `fileInfos` list is the distinguished
`ErrNoMetadataExtracted`; otherwise the first entry's field map is returned. -/
def extractExifData (exifInit : Option String) (fileInfos : List FileMetadata) :
    Except MEError (List (String × String)) :=
  match exifInit with
  | some err => .error (.wrapped ("error initializing ExifTool: " ++ err))
  | none =>
    match fileInfos with
    | [] => .error .noMetadataExtracted
    | fi :: _ =>
      match fi.Err with
      | some e => .error (.wrapped ("error extracting metadata: " ++ e))
      | none => .ok fi.Fields

/-- `Extract`: the full pipeline, returning the (possibly partial) metadata
together with `some` error or `none` on success, mirroring the Go control
flow statement by statement. -/
def Extract (env : ExtractEnv) (filePath : String) : Metadata × Option MEError :=
  let metadata := zeroMetadata
  if filePath = "" then
    (metadata, some .noFileSpecified)
  else
    match env.statResult with
    | .error err =>
      if err.isNotExist then (metadata, some .fileNotFound)
      else (metadata, some (.osError err))
    | .ok fileInfo =>
      let metadata := { metadata with
        Name := goBase filePath
        Extension := goToLower (goExt filePath)
        Size := fileInfo.size }
      match getFileTimes env.timesResult with
      | .error err => (metadata, some (.osError err))
      | .ok fileTime =>
        let metadata := { metadata with Time := fileTime }
        match env.tridResult with
        | .error err => (metadata, some (.osError err))
        | .ok fileTypes =>
          let metadata := { metadata with Types := fileTypes }
          let metadata :=
            match fileTypes with
            | [] => metadata
            | t0 :: _ =>
              { metadata with ExtMismatch := computeExtMismatch metadata.Extension t0.Extension }
          match extractExifData env.exifInit env.exifFileInfos with
          | .ok exifData => ({ metadata with Exif := some exifData }, none)
          | .error err =>
            if err = .noMetadataExtracted then
              ({ metadata with Exif := some [] }, none)
            else
              (metadata, some err)

example : goExt ("sample.doc") = ".doc" := by decide
example : goExt ("dir/noext") = "" := by decide
example : goBase ("dir/sample.doc") = "sample.doc" := by decide
example : goSplitSlash ("jpg/jpeg") = ["jpg", "jpeg"] := by decide
example : computeExtMismatch (".jpeg") ("jpg/jpeg") = false := by decide
example : computeExtMismatch (".png") ("jpg/jpeg") = true := by decide
example : computeExtMismatch (".doc") ("doc") = true := by decide
example : computeExtMismatch (".doc") (".doc") = false := by decide

/-! ### Helper lemmas -/

lemma splitSlashAux_ne_nil (l : List Char) : splitSlashAux l ≠ [] := by
  induction l with
  | nil => simp [splitSlashAux]
  | cons c rest ih =>
    by_cases hc : c = '/'
    · simp [splitSlashAux, hc]
    · simp only [splitSlashAux, if_neg hc]
      cases h : splitSlashAux rest with
      | nil => exact absurd h ih
      | cons r rs => simp

lemma splitSlashAux_filter (p : Char → Bool) (hp : p '/' = true) (l : List Char) :
    splitSlashAux (l.filter p) = (splitSlashAux l).map (List.filter p) := by
  induction l with
  | nil => simp [splitSlashAux]
  | cons c rest ih =>
    cases hc : p c with
    | true =>
      by_cases hslash : c = '/'
      · simp [List.filter_cons, hc, hp, splitSlashAux, hslash, ih]
      · cases h : splitSlashAux rest with
        | nil => exact absurd h (splitSlashAux_ne_nil rest)
        | cons r rs =>
          simp [List.filter_cons, hc, splitSlashAux, hslash, ih, h]
    | false =>
      have hslash : ¬ c = '/' := by
        intro hcs
        rw [hcs, hp] at hc
        exact Bool.noConfusion hc
      cases h : splitSlashAux rest with
      | nil => exact absurd h (splitSlashAux_ne_nil rest)
      | cons r rs =>
        simp [List.filter_cons, hc, splitSlashAux, hslash, ih, h]

lemma goSplitSlash_removeDots (s : String) :
    goSplitSlash (goRemoveDots s) = (goSplitSlash s).map goRemoveDots := by
  show (splitSlashAux ((s.data).filter (fun c => ¬ c = '.'))).map String.mk =
    ((splitSlashAux s.data).map String.mk).map goRemoveDots
  rw [splitSlashAux_filter (fun c => ¬ c = '.') (by decide) s.data]
  simp only [List.map_map]
  rfl

lemma extMatchLoop_eq_any (ext : String) (l : List String) :
    extMatchLoop ext l = l.any (fun e => "." ++ e = ext) := by
  induction l with
  | nil => simp [extMatchLoop]
  | cons e es ih =>
    by_cases h : "." ++ e = ext
    · simp [extMatchLoop, h]
    · simp [extMatchLoop, h, ih]

lemma goExtAux_eq_empty (r : List Char)
    (h : ('.' : Char) ∉ r.takeWhile (fun c => ¬ c = '/')) :
    ∀ acc, goExtAux acc r = "" := by
  induction r with
  | nil => intro acc; rfl
  | cons c rest ih =>
    intro acc
    by_cases hslash : c = '/'
    · simp [goExtAux, hslash]
    · have htw : (c :: rest).takeWhile (fun c => ¬ c = '/') =
          c :: rest.takeWhile (fun c => ¬ c = '/') := by
        simp [List.takeWhile_cons, hslash]
      rw [htw] at h
      have hcd : ¬ c = '.' := fun hc => h (hc ▸ List.mem_cons_self c _)
      have hrest : ('.' : Char) ∉ rest.takeWhile (fun c => ¬ c = '/') :=
        fun hm => h (List.mem_cons_of_mem c hm)
      simp [goExtAux, hslash, hcd, ih hrest]

lemma goExt_eq_empty (p : String) (h : ('.' : Char) ∉ (goBase p).data) :
    goExt p = "" := by
  unfold goExt
  cases hr : p.data.reverse with
  | nil => rfl
  | cons c rest =>
    by_cases hslash : c = '/'
    · simp [goExtAux, hslash]
    · have hp : ¬ p = "" := by
        intro hp0
        rw [hp0] at hr
        have hnil : ([] : List Char) = c :: rest := hr
        exact List.noConfusion hnil
      have hbase : (goBase p).data = (c :: rest.takeWhile (fun c => ¬ c = '/')).reverse := by
        simp only [goBase, if_neg hp, hr, List.dropWhile_cons, hslash, decide_False,
          Bool.false_eq_true, if_false, List.takeWhile_cons, decide_not, decide_True,
          Bool.not_false]
        simp [hslash]
      rw [hbase] at h
      rw [List.mem_reverse] at h
      refine goExtAux_eq_empty (c :: rest) ?_ []
      rw [List.takeWhile_cons]
      simpa [hslash] using h

lemma goToLower_empty : goToLower ("") = "" := rfl

/-! ### Claim theorems -/

/-- C5: for the empty input path, `Extract` fails with `NoFileSpecified` and
returns the zero-valued `Metadata`; the result is the same for every
environment, i.e. no stat and no external tool outcome is consulted. -/
theorem extract_empty_path (env : ExtractEnv) :
    Extract env "" = (zeroMetadata, some MEError.noFileSpecified) := rfl

/-- C6: for a non-empty path whose initial `os.Stat` fails with a not-exist
error, `Extract` fails with `FileNotFound`. -/
theorem extract_file_not_found (env : ExtractEnv) (p : String) (e : OsError)
    (hp : ¬ p = "") (hstat : env.statResult = .error e)
    (hne : e.isNotExist = true) :
    Extract env p = (zeroMetadata, some MEError.fileNotFound) := by
  simp only [Extract]
  rw [if_neg hp, hstat]
  simp [hne]

theorem extract_file_not_found_witness :
    Extract
      { statResult := .error ⟨true, "no such file"⟩
        timesResult := .ok ⟨0, 0, 0, 0, false, false⟩
        tridResult := .ok []
        exifInit := none
        exifFileInfos := [] }
      ("nonexistent_file") = (zeroMetadata, some MEError.fileNotFound) :=
  extract_file_not_found _ ("nonexistent_file") ⟨true, "no such file"⟩
    (by decide) rfl rfl

/-- C8: on a successful timestamp query `getFileTimes` never fails:
`ModTime` and `AccessTime` are always taken from the stat result, while
`ChangeTime`/`BirthTime` are taken only when the corresponding capability
flag is set and are left at the zero value otherwise — an unsupported
change/birth time yields a nil error, not a failure. -/
theorem getFileTimes_ok (t : TimesInfo) :
    getFileTimes (Except.ok t) =
      Except.ok
        { ModTime := t.modTime
          AccessTime := t.accessTime
          ChangeTime := if t.hasChangeTime then t.changeTime else 0
          BirthTime := if t.hasBirthTime then t.birthTime else 0 } := rfl

/-- C10: when the first stat succeeds but the second, timestamp-gathering
stat fails, `Extract` propagates that error unmapped (even a not-exist error
is not turned into `FileNotFound`), with `Name`, `Extension` and `Size`
populated and every timestamp field still zero-valued. -/
theorem extract_times_failure (env : ExtractEnv) (p : String) (fi : FileInfo)
    (e : OsError) (hp : ¬ p = "") (hstat : env.statResult = .ok fi)
    (htimes : env.timesResult = .error e) :
    Extract env p =
      ({ zeroMetadata with
          Name := goBase p
          Extension := goToLower (goExt p)
          Size := fi.size },
       some (MEError.osError e)) := by
  simp only [Extract, getFileTimes]
  rw [if_neg hp, hstat, htimes]

theorem extract_times_failure_witness :
    Extract
      { statResult := .ok ⟨7⟩
        timesResult := .error ⟨true, "vanished"⟩
        tridResult := .ok []
        exifInit := none
        exifFileInfos := [] }
      ("dir/gone.txt") =
      ({ zeroMetadata with Name := "gone.txt", Extension := ".txt", Size := 7 },
       some (MEError.osError ⟨true, "vanished"⟩)) := by
  rw [extract_times_failure _ ("dir/gone.txt") ⟨7⟩ ⟨true, "vanished"⟩
    (by decide) rfl rfl]
  decide

/-- C3: failures after the initial stat keep the partial result.  On a
type-identification failure the returned metadata still carries `Name`,
`Extension`, `Size` and the timestamps; on a tag-extraction failure other
than the distinguished no-metadata case it additionally carries `Types` and
`ExtMismatch`, and the error is returned alongside. -/
theorem extract_partial_results (env : ExtractEnv) (p : String) (fi : FileInfo)
    (ti : TimesInfo) (hp : ¬ p = "") (hstat : env.statResult = .ok fi)
    (htimes : env.timesResult = .ok ti) :
    (∀ e, env.tridResult = .error e →
      Extract env p =
        ({ zeroMetadata with
            Name := goBase p
            Extension := goToLower (goExt p)
            Size := fi.size
            Time :=
              { ModTime := ti.modTime
                AccessTime := ti.accessTime
                ChangeTime := if ti.hasChangeTime then ti.changeTime else 0
                BirthTime := if ti.hasBirthTime then ti.birthTime else 0 } },
         some (MEError.osError e)))
    ∧ (∀ fts err, env.tridResult = .ok fts →
        extractExifData env.exifInit env.exifFileInfos = .error err →
        ¬ err = MEError.noMetadataExtracted →
        (Extract env p).2 = some err ∧
        (Extract env p).1.Name = goBase p ∧
        (Extract env p).1.Extension = goToLower (goExt p) ∧
        (Extract env p).1.Size = fi.size ∧
        (Extract env p).1.Time =
          { ModTime := ti.modTime
            AccessTime := ti.accessTime
            ChangeTime := if ti.hasChangeTime then ti.changeTime else 0
            BirthTime := if ti.hasBirthTime then ti.birthTime else 0 } ∧
        (Extract env p).1.Types = fts ∧
        (Extract env p).1.ExtMismatch =
          (match fts with
           | [] => false
           | t0 :: _ => computeExtMismatch (goToLower (goExt p)) t0.Extension)) := by
  constructor
  · intro e he
    simp only [Extract, getFileTimes]
    rw [if_neg hp, hstat, htimes, he]
  · intro fts err hok hexif hne
    simp only [Extract, getFileTimes]
    rw [if_neg hp, hstat, htimes, hok, hexif]
    cases fts with
    | nil => simp [hne, zeroMetadata]
    | cons t0 ts => simp [hne]

/-- Concrete environment used to exercise the tag-extraction failure path:
TrID succeeds with one candidate and ExifTool reports a per-file error. -/
def envExifFailure : ExtractEnv :=
  { statResult := .ok ⟨5⟩
    timesResult := .ok ⟨10, 20, 30, 40, true, false⟩
    tridResult := .ok [⟨"Plain text", "text/plain", "txt"⟩]
    exifInit := none
    exifFileInfos := [⟨some "boom", []⟩] }

theorem extract_partial_results_witness :
    (Extract envExifFailure ("a.txt")).2 =
      some (MEError.wrapped ("error extracting metadata: boom")) ∧
    (Extract envExifFailure ("a.txt")).1.Types =
      [⟨"Plain text", "text/plain", "txt"⟩] := by
  have h := (extract_partial_results envExifFailure ("a.txt") ⟨5⟩
      ⟨10, 20, 30, 40, true, false⟩ (by decide) rfl rfl).2
    [⟨"Plain text", "text/plain", "txt"⟩]
    (MEError.wrapped ("error extracting metadata: boom")) rfl rfl (by decide)
  exact ⟨h.1, h.2.2.2.2.2.1⟩

/-- C4: when ExifTool initializes but its per-file result list is empty (the
distinguished no-metadata case), `Extract` succeeds with a present-but-empty
tag map. -/
theorem extract_no_metadata_ok (env : ExtractEnv) (p : String) (fi : FileInfo)
    (ti : TimesInfo) (fts : List FileType) (hp : ¬ p = "")
    (hstat : env.statResult = .ok fi) (htimes : env.timesResult = .ok ti)
    (htrid : env.tridResult = .ok fts) (hinit : env.exifInit = none)
    (hempty : env.exifFileInfos = []) :
    (Extract env p).2 = none ∧ (Extract env p).1.Exif = some [] := by
  simp only [Extract, getFileTimes, extractExifData]
  rw [if_neg hp, hstat, htimes, htrid, hinit, hempty]
  cases fts with
  | nil => simp
  | cons t0 ts => simp

theorem extract_no_metadata_ok_witness :
    (Extract
      { statResult := .ok ⟨1044⟩
        timesResult := .ok ⟨10, 20, 0, 0, false, false⟩
        tridResult := .ok []
        exifInit := none
        exifFileInfos := [] }
      ("testdata/empty")).2 = none ∧
    (Extract
      { statResult := .ok ⟨1044⟩
        timesResult := .ok ⟨10, 20, 0, 0, false, false⟩
        tridResult := .ok []
        exifInit := none
        exifFileInfos := [] }
      ("testdata/empty")).1.Exif = some [] :=
  extract_no_metadata_ok _ ("testdata/empty") ⟨1044⟩ ⟨10, 20, 0, 0, false, false⟩
    [] (by decide) rfl rfl rfl rfl rfl

lemma extract_extMismatch (env : ExtractEnv) (p : String) (fi : FileInfo)
    (ti : TimesInfo) (t0 : FileType) (ts : List FileType) (hp : ¬ p = "")
    (hstat : env.statResult = .ok fi) (htimes : env.timesResult = .ok ti)
    (htrid : env.tridResult = .ok (t0 :: ts)) :
    (Extract env p).1.ExtMismatch =
      computeExtMismatch (goToLower (goExt p)) t0.Extension := by
  simp only [Extract, getFileTimes]
  rw [if_neg hp, hstat, htimes, htrid]
  cases h : extractExifData env.exifInit env.exifFileInfos with
  | ok d => simp
  | error err =>
    by_cases hne : err = MEError.noMetadataExtracted
    · simp [hne]
    · simp [hne]

/-- C7: when type identification succeeds with an empty candidate list,
`ExtMismatch` stays false; and for a file whose name contains no dot the
recorded extension is the empty string. -/
theorem extract_no_candidates (env : ExtractEnv) (p : String) (fi : FileInfo)
    (ti : TimesInfo) (hp : ¬ p = "") (hstat : env.statResult = .ok fi)
    (htimes : env.timesResult = .ok ti) (htrid : env.tridResult = .ok []) :
    (Extract env p).1.ExtMismatch = false ∧
    (('.' : Char) ∉ (goBase p).data → (Extract env p).1.Extension = "") := by
  simp only [Extract, getFileTimes]
  rw [if_neg hp, hstat, htimes, htrid]
  cases h : extractExifData env.exifInit env.exifFileInfos with
  | ok d =>
    refine ⟨by simp [zeroMetadata], fun hnd => ?_⟩
    simp only []
    show goToLower (goExt p) = ""
    rw [goExt_eq_empty p hnd]
    exact goToLower_empty
  | error err =>
    by_cases hne : err = MEError.noMetadataExtracted
    · refine ⟨by simp [hne, zeroMetadata], fun hnd => ?_⟩
      simp only [hne]
      show goToLower (goExt p) = ""
      rw [goExt_eq_empty p hnd]
      exact goToLower_empty
    · refine ⟨by simp [hne, zeroMetadata], fun hnd => ?_⟩
      simp only [if_neg hne]
      show goToLower (goExt p) = ""
      rw [goExt_eq_empty p hnd]
      exact goToLower_empty

/-- Concrete environment where TrID reports no candidate types. -/
def envNoCandidates : ExtractEnv :=
  { statResult := .ok ⟨1044⟩
    timesResult := .ok ⟨10, 20, 0, 0, false, false⟩
    tridResult := .ok []
    exifInit := none
    exifFileInfos := [⟨none, []⟩] }

theorem extract_no_candidates_witness :
    (Extract envNoCandidates ("testdata/empty")).1.ExtMismatch = false ∧
    (Extract envNoCandidates ("testdata/empty")).1.Extension = "" := by
  have h := extract_no_candidates envNoCandidates ("testdata/empty") ⟨1044⟩
    ⟨10, 20, 0, 0, false, false⟩ (by decide) rfl rfl rfl
  exact ⟨h.1, h.2 (by decide)⟩

/-- C9: an extensionless file is always flagged as mismatched when the top
candidate's matched-extension field is non-empty and slash-free, since the
empty extension cannot equal the non-empty field. -/
theorem extract_extensionless_mismatch (env : ExtractEnv) (p : String)
    (fi : FileInfo) (ti : TimesInfo) (t0 : FileType) (ts : List FileType)
    (hp : ¬ p = "") (hstat : env.statResult = .ok fi)
    (htimes : env.timesResult = .ok ti) (htrid : env.tridResult = .ok (t0 :: ts))
    (hslash : goContainsSlash t0.Extension = false)
    (hne0 : ¬ t0.Extension = "") (hnd : ('.' : Char) ∉ (goBase p).data) :
    (Extract env p).1.ExtMismatch = true := by
  rw [extract_extMismatch env p fi ti t0 ts hp hstat htimes htrid]
  rw [goExt_eq_empty p hnd, goToLower_empty]
  simp only [computeExtMismatch, hslash, Bool.false_eq_true, if_false,
    decide_eq_true_eq]
  exact fun hc => hne0 hc.symm

/-- Concrete environment with an extensionless target and a slash-free
candidate field. -/
def envExtensionless : ExtractEnv :=
  { statResult := .ok ⟨1044⟩
    timesResult := .ok ⟨10, 20, 0, 0, false, false⟩
    tridResult := .ok [⟨"MP3 audio", "audio/mpeg", "mp3"⟩]
    exifInit := none
    exifFileInfos := [⟨none, []⟩] }

theorem extract_extensionless_mismatch_witness :
    (Extract envExtensionless ("testdata/empty")).1.ExtMismatch = true :=
  extract_extensionless_mismatch envExtensionless ("testdata/empty") ⟨1044⟩
    ⟨10, 20, 0, 0, false, false⟩ ⟨"MP3 audio", "audio/mpeg", "mp3"⟩ []
    (by decide) rfl rfl rfl (by decide) (by decide) (by decide)

/-- C2: when the top candidate's matched-extension field contains a slash,
`ExtMismatch` is the negation of: some slash-separated alternative of the
field, with every dot removed and then prefixed with a dot, equals
(case-sensitively) the file's lower-cased extension. -/
theorem extract_slash_alternatives (env : ExtractEnv) (p : String)
    (fi : FileInfo) (ti : TimesInfo) (t0 : FileType) (ts : List FileType)
    (hp : ¬ p = "") (hstat : env.statResult = .ok fi)
    (htimes : env.timesResult = .ok ti) (htrid : env.tridResult = .ok (t0 :: ts))
    (hslash : goContainsSlash t0.Extension = true) :
    (Extract env p).1.ExtMismatch =
      ! ((goSplitSlash t0.Extension).map goRemoveDots).any
          (fun e => "." ++ e = goToLower (goExt p)) := by
  rw [extract_extMismatch env p fi ti t0 ts hp hstat htimes htrid]
  simp only [computeExtMismatch, hslash, if_true]
  rw [extMatchLoop_eq_any, goSplitSlash_removeDots]

/-- Concrete environment whose top candidate carries the alternative field
`"jpg/jpeg"`. -/
def envJpegAlternatives : ExtractEnv :=
  { statResult := .ok ⟨2048⟩
    timesResult := .ok ⟨10, 20, 30, 40, true, true⟩
    tridResult := .ok [⟨"JPEG bitmap", "image/jpeg", "jpg/jpeg"⟩]
    exifInit := none
    exifFileInfos := [⟨none, [("FileType", "JPEG")]⟩] }

theorem extract_slash_alternatives_witness :
    (Extract envJpegAlternatives ("photo.jpeg")).1.ExtMismatch = false ∧
    (Extract envJpegAlternatives ("photo.png")).1.ExtMismatch = true := by
  constructor
  · rw [extract_slash_alternatives envJpegAlternatives ("photo.jpeg") ⟨2048⟩
      ⟨10, 20, 30, 40, true, true⟩ ⟨"JPEG bitmap", "image/jpeg", "jpg/jpeg"⟩ []
      (by decide) rfl rfl rfl (by decide)]
    decide
  · rw [extract_slash_alternatives envJpegAlternatives ("photo.png") ⟨2048⟩
      ⟨10, 20, 30, 40, true, true⟩ ⟨"JPEG bitmap", "image/jpeg", "jpg/jpeg"⟩ []
      (by decide) rfl rfl rfl (by decide)]
    decide

/-- Concrete environment whose top candidate carries the slash-free,
dotless field `"doc"`, as in the claim. -/
def envPlainDoc : ExtractEnv :=
  { statResult := .ok ⟨1044⟩
    timesResult := .ok ⟨10, 20, 30, 40, true, true⟩
    tridResult := .ok [⟨"Microsoft Word document", "application/msword", "doc"⟩]
    exifInit := none
    exifFileInfos := [⟨none, [("FileType", "DOC")]⟩] }

/-- C1 counterexample: with a top candidate whose matched-extension field is
`"doc"` and the file `sample.doc`, the claim predicts `ExtMismatch = false`,
but `Extract` compares the dotted lower-cased extension `".doc"` to the
field `"doc"` directly and flags a mismatch. -/
theorem extract_plain_field_counterexample :
    (Extract envPlainDoc ("sample.doc")).1.ExtMismatch = true := by decide

/-- C1 (amended): in the slash-free case `ExtMismatch` is false exactly when
the file's lower-cased extension — leading dot included — equals the top
candidate's matched-extension field; so a field `".doc"` gives false for
`sample.doc` and true for `sample.txt`, while the dotless field `"doc"` is
always a mismatch. -/
theorem extract_plain_field (env : ExtractEnv) (p : String) (fi : FileInfo)
    (ti : TimesInfo) (t0 : FileType) (ts : List FileType) (hp : ¬ p = "")
    (hstat : env.statResult = .ok fi) (htimes : env.timesResult = .ok ti)
    (htrid : env.tridResult = .ok (t0 :: ts))
    (hslash : goContainsSlash t0.Extension = false) :
    ((Extract env p).1.ExtMismatch = false ↔ goToLower (goExt p) = t0.Extension) := by
  rw [extract_extMismatch env p fi ti t0 ts hp hstat htimes htrid]
  simp [computeExtMismatch, hslash]

/-- Concrete environment whose top candidate carries the dotted, slash-free
field `".doc"`. -/
def envPlainDotDoc : ExtractEnv :=
  { statResult := .ok ⟨1044⟩
    timesResult := .ok ⟨10, 20, 30, 40, true, true⟩
    tridResult := .ok [⟨"Microsoft Word document", "application/msword", ".doc"⟩]
    exifInit := none
    exifFileInfos := [⟨none, []⟩] }

theorem extract_plain_field_witness :
    (Extract envPlainDotDoc ("sample.doc")).1.ExtMismatch = false ∧
    (Extract envPlainDotDoc ("sample.txt")).1.ExtMismatch = true := by
  constructor
  · exact (extract_plain_field envPlainDotDoc ("sample.doc") ⟨1044⟩
      ⟨10, 20, 30, 40, true, true⟩
      ⟨"Microsoft Word document", "application/msword", ".doc"⟩ []
      (by decide) rfl rfl rfl (by decide)).mpr (by decide)
  · have h := extract_plain_field envPlainDotDoc ("sample.txt") ⟨1044⟩
      ⟨10, 20, 30, 40, true, true⟩
      ⟨"Microsoft Word document", "application/msword", ".doc"⟩ []
      (by decide) rfl rfl rfl (by decide)
    cases hb : (Extract envPlainDotDoc ("sample.txt")).1.ExtMismatch with
    | false => exact absurd (h.mp hb) (by decide)
    | true => rfl
